import Mathlib

/-!
Shallow embedding of `src/assignment_1.py`, a student management system:
entity classes `Person`/`Student`/`Course`, a registry
(`StudentManagementSystem`) owning two dictionaries (students keyed by
student id, courses keyed by course code), and JSON save/load.

Python dictionaries are modelled as association lists with insertion-order
semantics: assignment to an existing key replaces the value in place,
assignment to a fresh key appends.  Exceptions are modelled by an `Err`
type; mutating registry operations return the resulting state together
with an optional error, so a state mutated before a raise is observable
exactly as in Python.
-/

set_option maxHeartbeats 1600000

/-- Exceptions raised by the program.  `valueError` and `keyError` carry
the message built by the corresponding f-string in the source;
`jsonDecodeError` models `json.JSONDecodeError` (malformed file) and
`fileNotFound` models `FileNotFoundError` from `open`. -/
inductive Err where
  | valueError (msg : String)
  | keyError (msg : String)
  | jsonDecodeError (msg : String)
  | fileNotFound
deriving DecidableEq, Repr

/-- Lookup in a Python dict modelled as an association list: `d[k]` /
`k in d` use the first entry with the given key. -/
def dget (k : String) (l : List (String × α)) : Option α :=
  (l.find? (fun p => p.1 = k)).map (fun p => p.2)

/-- Assignment `d[k] = v` on a Python dict: replace the value of an
existing key in place (keeping insertion order), otherwise append. -/
def dinsert (k : String) (v : α) (l : List (String × α)) : List (String × α) :=
  match l with
  | [] => [(k, v)]
  | p :: rest => if p.1 = k then (k, v) :: rest else p :: dinsert k v rest

/-- `class Student(Person)` flattened: the inherited `Person` fields
(`name`, `age`, `address`) followed by the fields set in
`Student.__init__` (`student_id`, `grades`, `courses`). -/
structure Student where
  name : String
  age : Int
  address : String
  student_id : String
  grades : List (String × String)
  courses : List String
deriving DecidableEq, Repr

/-- `class Course`. -/
structure Course where
  course_name : String
  course_code : String
  instructor : String
  students : List String
deriving DecidableEq, Repr

/-- `Student.add_grade`: raises if the course code is absent from the
student's course list, otherwise sets/overwrites `grades[course_code]`. -/
def Student.add_grade (s : Student) (course_code grade : String) : Except Err Student :=
  if course_code ∈ s.courses then
    .ok { s with grades := dinsert course_code grade s.grades }
  else
    .error (.valueError ("Student " ++ s.student_id ++ " is not enrolled in course " ++ course_code ++ "."))

/-- `Student.enroll_course`: raises on duplicate enrollment, otherwise
appends the course code. -/
def Student.enroll_course (s : Student) (course_code : String) : Except Err Student :=
  if course_code ∈ s.courses then
    .error (.valueError ("Student " ++ s.student_id ++ " already enrolled in " ++ course_code ++ "."))
  else
    .ok { s with courses := s.courses ++ [course_code] }

/-- `Course.add_student`: raises on duplicate enrollment, otherwise
appends the student id. -/
def Course.add_student (c : Course) (student_id : String) : Except Err Course :=
  if student_id ∈ c.students then
    .error (.valueError ("Student " ++ student_id ++ " already enrolled in " ++ c.course_code ++ "."))
  else
    .ok { c with students := c.students ++ [student_id] }

/-- The dict form produced by `Student.to_dict` / consumed by
`Student.from_dict`.  Every field is optional because `from_dict` may be
fed a mapping with keys missing (`data["name"]` raises `KeyError`,
`data.get("grades", {})` defaults). -/
structure StudentDict where
  name : Option String
  age : Option Int
  address : Option String
  student_id : Option String
  grades : Option (List (String × String))
  courses : Option (List String)
deriving DecidableEq, Repr

/-- The dict form produced by `Course.to_dict` / consumed by
`Course.from_dict`. -/
structure CourseDict where
  course_name : Option String
  course_code : Option String
  instructor : Option String
  students : Option (List String)
deriving DecidableEq, Repr

/-- `data[key]` on a modelled dict form: `KeyError(key)` when absent. -/
def req (key : String) (o : Option α) : Except Err α :=
  match o with
  | some v => .ok v
  | none => .error (.keyError key)

/-- `Student.to_dict` (includes the `Person.to_dict` fields). -/
def Student.to_dict (s : Student) : StudentDict :=
  { name := some s.name, age := some s.age, address := some s.address,
    student_id := some s.student_id, grades := some s.grades, courses := some s.courses }

/-- `Student.from_dict`: required fields via `data[...]`, collection
fields via `data.get(..., default)`. -/
def Student.from_dict (d : StudentDict) : Except Err Student := do
  let n ← req "name" d.name
  let a ← req "age" d.age
  let ad ← req "address" d.address
  let sid ← req "student_id" d.student_id
  .ok { name := n, age := a, address := ad, student_id := sid,
        grades := d.grades.getD [], courses := d.courses.getD [] }

/-- `Course.to_dict`. -/
def Course.to_dict (c : Course) : CourseDict :=
  { course_name := some c.course_name, course_code := some c.course_code,
    instructor := some c.instructor, students := some c.students }

/-- `Course.from_dict`. -/
def Course.from_dict (d : CourseDict) : Except Err Course := do
  let n ← req "course_name" d.course_name
  let cc ← req "course_code" d.course_code
  let i ← req "instructor" d.instructor
  .ok { course_name := n, course_code := cc, instructor := i,
        students := d.students.getD [] }

/-- The registry state: `self.students` and `self.courses` of
`StudentManagementSystem`. -/
structure SMS where
  students : List (String × Student)
  courses : List (String × Course)
deriving DecidableEq, Repr

/-- `StudentManagementSystem.__init__`: two empty dictionaries. -/
def emptySMS : SMS := { students := [], courses := [] }

namespace SMS

/-- `add_student`: raises on an existing id, otherwise stores a fresh
`Student` under that id. -/
def add_student (name : String) (age : Int) (address student_id : String) (r : SMS) :
    SMS × Option Err :=
  if (dget student_id r.students).isSome then
    (r, some (.valueError ("Student ID " ++ student_id ++ " already exists.")))
  else
    let s : Student :=
      { name := name, age := age, address := address, student_id := student_id,
        grades := [], courses := [] }
    ({ r with students := dinsert student_id s r.students }, none)

/-- `get_student`: `KeyError` when absent, otherwise the stored entity. -/
def get_student (student_id : String) (r : SMS) : Except Err Student :=
  match dget student_id r.students with
  | some s => .ok s
  | none => .error (.keyError ("Student ID " ++ student_id ++ " not found."))

/-- `add_course`: raises on an existing code, otherwise stores a fresh
`Course` under that code. -/
def add_course (course_name course_code instructor : String) (r : SMS) :
    SMS × Option Err :=
  if (dget course_code r.courses).isSome then
    (r, some (.valueError ("Course code " ++ course_code ++ " already exists.")))
  else
    let c : Course :=
      { course_name := course_name, course_code := course_code,
        instructor := instructor, students := [] }
    ({ r with courses := dinsert course_code c r.courses }, none)

/-- `get_course`: `KeyError` when absent, otherwise the stored entity. -/
def get_course (course_code : String) (r : SMS) : Except Err Course :=
  match dget course_code r.courses with
  | some c => .ok c
  | none => .error (.keyError ("Course code " ++ course_code ++ " not found."))

/-- `enroll_student_in_course`: looks up both entities, then mutates the
student side (`Student.enroll_course`) before the course side
(`Course.add_student`); a failure of the second step leaves the student
side mutated, exactly as in the source. -/
def enroll_student_in_course (student_id course_code : String) (r : SMS) :
    SMS × Option Err :=
  match get_student student_id r with
  | .error e => (r, some e)
  | .ok st =>
    match get_course course_code r with
    | .error e => (r, some e)
    | .ok co =>
      match st.enroll_course course_code with
      | .error e => (r, some e)
      | .ok st' =>
        let r' := { r with students := dinsert student_id st' r.students }
        match co.add_student student_id with
        | .error e => (r', some e)
        | .ok co' => ({ r' with courses := dinsert course_code co' r'.courses }, none)

/-- `add_grade_for_student`: not-found on an unknown student, a
not-enrolled `ValueError` when the course code is absent from the
student's course list, otherwise delegates to `Student.add_grade`. -/
def add_grade_for_student (student_id course_code grade : String) (r : SMS) :
    SMS × Option Err :=
  match dget student_id r.students with
  | none => (r, some (.keyError ("Student ID " ++ student_id ++ " not found.")))
  | some st =>
    if course_code ∈ st.courses then
      match st.add_grade course_code grade with
      | .ok st' => ({ r with students := dinsert student_id st' r.students }, none)
      | .error e => (r, some e)
    else
      (r, some (.valueError ("Student " ++ student_id ++ " is not enrolled in " ++ course_code ++ ".")))

end SMS

/-- The JSON document written by `save_data`: an object with keys
`students` and `courses`, each mapping ids/codes to entity dict forms.
The fields are optional because `load_data` reads them with
`data.get(..., {})`. -/
structure Document where
  students : Option (List (String × StudentDict))
  courses : Option (List (String × CourseDict))
deriving DecidableEq, Repr

/-- Content found at a filename: the file may be missing
(`FileNotFoundError`), malformed (`json.JSONDecodeError`), or parse to a
document. -/
inductive FileContent where
  | missing
  | malformed
  | parsed (d : Document)
deriving DecidableEq, Repr

/-- `save_data`: the document serialized from the registry (both
collections, each entity via its dict form). -/
def SMS.save_data (r : SMS) : Document :=
  { students := some (r.students.map (fun p => (p.1, p.2.to_dict))),
    courses := some (r.courses.map (fun p => (p.1, p.2.to_dict))) }

/-- The comprehension `{sid: Student.from_dict(sdata) for ...}`:
left-to-right, raising on the first bad entry. -/
def buildStudents : List (String × StudentDict) → Except Err (List (String × Student))
  | [] => .ok []
  | p :: rest => do
    let s ← Student.from_dict p.2
    let rest' ← buildStudents rest
    .ok ((p.1, s) :: rest')

/-- The comprehension `{cc: Course.from_dict(cdata) for ...}`. -/
def buildCourses : List (String × CourseDict) → Except Err (List (String × Course))
  | [] => .ok []
  | p :: rest => do
    let c ← Course.from_dict p.2
    let rest' ← buildCourses rest
    .ok ((p.1, c) :: rest')

/-- One step of the load-time consistency loop body: for a course code
`cc` and a student id `sid` listed by that course, if the student exists
and does not list `cc`, append `cc` to its course list. -/
def repairStep (cc : String) (sts : List (String × Student)) (sid : String) :
    List (String × Student) :=
  match dget sid sts with
  | none => sts
  | some st =>
    if cc ∈ st.courses then sts
    else dinsert sid { st with courses := st.courses ++ [cc] } sts

/-- The full consistency loop of `load_data`: for every course and every
student id it lists, ensure the existing student's course list contains
the course code. -/
def repair (sts : List (String × Student)) (crs : List (String × Course)) :
    List (String × Student) :=
  crs.foldl (fun acc p => p.2.students.foldl (repairStep p.1) acc) sts

/-- `load_data`: missing file and malformed JSON raise before any
mutation; a bad student entry raises before `self.students` is assigned;
a bad course entry raises after `self.students` was already replaced
(partial overwrite, as in the source); on success both collections are
replaced and the consistency loop runs. -/
def SMS.load_data (file : FileContent) (r : SMS) : SMS × Option Err :=
  match file with
  | .missing => (r, some .fileNotFound)
  | .malformed => (r, some (.jsonDecodeError "Expecting value"))
  | .parsed d =>
    match buildStudents (d.students.getD []) with
    | .error e => (r, some e)
    | .ok sts =>
      match buildCourses (d.courses.getD []) with
      | .error e => ({ r with students := sts }, some e)
      | .ok crs => ({ students := repair sts crs, courses := crs }, none)

/-- Registry-mutating operations other than `load_data`/`save_data`
(the four menu operations that change state), as a step relation on the
state component of the result, errors included. -/
inductive SMS.Step : SMS → SMS → Prop where
  | add_student (name : String) (age : Int) (address student_id : String) (r : SMS) :
      SMS.Step r (SMS.add_student name age address student_id r).1
  | add_course (course_name course_code instructor : String) (r : SMS) :
      SMS.Step r (SMS.add_course course_name course_code instructor r).1
  | enroll (student_id course_code : String) (r : SMS) :
      SMS.Step r (SMS.enroll_student_in_course student_id course_code r).1
  | add_grade (student_id course_code grade : String) (r : SMS) :
      SMS.Step r (SMS.add_grade_for_student student_id course_code grade r).1

/-- States reachable from the empty registry by the four mutating
operations. -/
inductive SMS.Reachable : SMS → Prop where
  | empty : SMS.Reachable emptySMS
  | step {r r' : SMS} : SMS.Reachable r → SMS.Step r r' → SMS.Reachable r'

/-- The grade-domain invariant: every course code keyed in a student's
grades mapping is an element of that student's course list. -/
def GradesInv (r : SMS) : Prop :=
  ∀ p ∈ r.students, ∀ q ∈ p.2.grades, q.1 ∈ p.2.courses

instance (r : SMS) : Decidable (GradesInv r) := by
  unfold GradesInv; infer_instance

/-- The one-directional link consistency checked by the load-time loop:
every student id listed by a stored course, when it exists in the student
collection, already lists that course's code. -/
def LinkConsistent (r : SMS) : Prop :=
  ∀ p ∈ r.courses, ∀ sid ∈ p.2.students, ∀ st, dget sid r.students = some st →
    p.1 ∈ st.courses

/-- Boolean form of `LinkConsistent`, for evaluation on concrete states. -/
def linkConsistentB (r : SMS) : Bool :=
  r.courses.all (fun p => p.2.students.all (fun sid =>
    match dget sid r.students with
    | none => true
    | some st => p.1 ∈ st.courses))

theorem linkConsistentB_iff (r : SMS) : linkConsistentB r = true ↔ LinkConsistent r := by
  unfold linkConsistentB LinkConsistent
  simp only [List.all_eq_true]
  constructor
  · intro h p hp sid hsid st hst
    have hx := h p hp sid hsid
    rw [hst] at hx
    exact of_decide_eq_true hx
  · intro h p hp sid hsid
    cases hst : dget sid r.students with
    | none => rfl
    | some st => exact decide_eq_true (h p hp sid hsid st hst)

instance (r : SMS) : Decidable (LinkConsistent r) :=
  decidable_of_iff _ (linkConsistentB_iff r)

/-! ### Association-list lemmas -/

theorem dget_nil (k : String) : dget k ([] : List (String × α)) = none := rfl

theorem dget_cons (k : String) (p : String × α) (l : List (String × α)) :
    dget k (p :: l) = if p.1 = k then some p.2 else dget k l := by
  by_cases h : p.1 = k
  · simp [dget, List.find?_cons, h]
  · simp [dget, List.find?_cons, h]

theorem dget_dinsert (k kq : String) (v : α) (l : List (String × α)) :
    dget kq (dinsert k v l) = if k = kq then some v else dget kq l := by
  induction l with
  | nil => simp [dinsert, dget_cons, dget_nil]
  | cons p rest ih =>
    simp only [dinsert]
    by_cases hp : p.1 = k
    · rw [if_pos hp, dget_cons]
      by_cases h : k = kq
      · simp [h]
      · rw [if_neg h, if_neg h, dget_cons, if_neg (by rw [hp]; exact h)]
    · rw [if_neg hp, dget_cons, dget_cons, ih]
      by_cases h : k = kq
      · subst h
        rw [if_neg hp, if_pos rfl, if_pos rfl]
      · rw [if_neg h, if_neg h]

theorem mem_dinsert {k : String} {v : α} {l : List (String × α)} {q : String × α}
    (h : q ∈ dinsert k v l) : q = (k, v) ∨ q ∈ l := by
  induction l with
  | nil =>
    simp only [dinsert, List.mem_singleton] at h
    exact Or.inl h
  | cons p rest ih =>
    simp only [dinsert] at h
    by_cases hp : p.1 = k
    · rw [if_pos hp] at h
      rcases List.mem_cons.mp h with h | h
      · exact Or.inl h
      · exact Or.inr (List.mem_cons_of_mem _ h)
    · rw [if_neg hp] at h
      rcases List.mem_cons.mp h with h | h
      · exact Or.inr (h ▸ List.mem_cons_self _ _)
      · rcases ih h with h | h
        · exact Or.inl h
        · exact Or.inr (List.mem_cons_of_mem _ h)

theorem dget_mem {k : String} {l : List (String × α)} {v : α} (h : dget k l = some v) :
    (k, v) ∈ l := by
  unfold dget at h
  cases hf : l.find? (fun p => p.1 = k) with
  | none => rw [hf] at h; cases h
  | some p =>
    rw [hf] at h
    have hm := List.mem_of_find?_eq_some hf
    have hk := List.find?_some hf
    obtain ⟨p1, p2⟩ := p
    have h1 : p1 = k := by simpa using hk
    have h2 : p2 = v := by simpa using h
    rw [h1, h2] at hm
    exact hm

/-! ### C1 and C2 -/

/-- C1: for every name, age, address and id such that the id is not yet a
key of the student collection, `add_student` succeeds and `get_student`
then returns a `Student` with exactly those fields and empty courses and
grades. -/
theorem c1_add_then_get (name : String) (age : Int) (address student_id : String)
    (r : SMS) (h : dget student_id r.students = none) :
    (SMS.add_student name age address student_id r).2 = none ∧
    SMS.get_student student_id (SMS.add_student name age address student_id r).1 =
      .ok { name := name, age := age, address := address, student_id := student_id,
            grades := [], courses := [] } := by
  unfold SMS.add_student SMS.get_student
  rw [h]
  simp [dget_dinsert]

theorem c1_witness :
    dget "S1" emptySMS.students = none ∧
    ((SMS.add_student "Alice" 20 "X St" "S1" emptySMS).2 = none ∧
     SMS.get_student "S1" (SMS.add_student "Alice" 20 "X St" "S1" emptySMS).1 =
       .ok { name := "Alice", age := 20, address := "X St", student_id := "S1",
             grades := [], courses := [] }) :=
  ⟨rfl, c1_add_then_get "Alice" 20 "X St" "S1" emptySMS rfl⟩

/-- C2: adding a student under an existing id, or a course under an
existing code, raises the duplicate-key `ValueError` and leaves the whole
registry state (hence the stored entity and both collections) unchanged. -/
theorem c2_duplicate_add (r : SMS) :
    (∀ sid st, dget sid r.students = some st →
      ∀ (name : String) (age : Int) (address : String),
        SMS.add_student name age address sid r =
          (r, some (.valueError ("Student ID " ++ sid ++ " already exists.")))) ∧
    (∀ cc c, dget cc r.courses = some c →
      ∀ (course_name instructor : String),
        SMS.add_course course_name cc instructor r =
          (r, some (.valueError ("Course code " ++ cc ++ " already exists.")))) := by
  constructor
  · intro sid st hs name age address
    unfold SMS.add_student
    rw [hs]
    rfl
  · intro cc c hc course_name instructor
    unfold SMS.add_course
    rw [hc]
    rfl

/-- A concrete registry with one student and one course, used by several
witnesses. -/
def regS1C1 : SMS :=
  (SMS.add_course "Algo" "C1" "Dr. B" (SMS.add_student "Alice" 20 "X St" "S1" emptySMS).1).1

def stAlice : Student :=
  { name := "Alice", age := 20, address := "X St", student_id := "S1",
    grades := [], courses := [] }

def cAlgo : Course :=
  { course_name := "Algo", course_code := "C1", instructor := "Dr. B", students := [] }

theorem c2_witness :
    dget "S1" regS1C1.students = some stAlice ∧
    dget "C1" regS1C1.courses = some cAlgo ∧
    (SMS.add_student "Bob" 21 "Y Rd" "S1" regS1C1 =
       (regS1C1, some (.valueError ("Student ID " ++ "S1" ++ " already exists."))) ∧
     SMS.add_course "ML" "C1" "Dr. C" regS1C1 =
       (regS1C1, some (.valueError ("Course code " ++ "C1" ++ " already exists.")))) :=
  ⟨rfl, rfl,
   (c2_duplicate_add regS1C1).1 "S1" stAlice rfl "Bob" 21 "Y Rd",
   (c2_duplicate_add regS1C1).2 "C1" cAlgo rfl "ML" "Dr. C"⟩

/-! ### C3 and C4 -/

/-- C3: from a state containing student `sid` and course `cc`, with the
pair not yet enrolled on either side, one `enroll_student_in_course`
succeeds, after it the student's course list contains `cc` exactly once
and the course's student list contains `sid` exactly once, and a second
identical call raises the duplicate-enrollment `ValueError`. -/
theorem c3_enroll_once (sid cc : String) (r : SMS) (st : Student) (co : Course)
    (hs : dget sid r.students = some st) (hc : dget cc r.courses = some co)
    (hnc : cc ∉ st.courses) (hns : sid ∉ co.students) :
    (SMS.enroll_student_in_course sid cc r).2 = none ∧
    (∃ st', dget sid (SMS.enroll_student_in_course sid cc r).1.students = some st' ∧
      st'.courses.count cc = 1) ∧
    (∃ co', dget cc (SMS.enroll_student_in_course sid cc r).1.courses = some co' ∧
      co'.students.count sid = 1) ∧
    (SMS.enroll_student_in_course sid cc (SMS.enroll_student_in_course sid cc r).1).2 =
      some (.valueError ("Student " ++ st.student_id ++ " already enrolled in " ++ cc ++ ".")) := by
  have hrun : SMS.enroll_student_in_course sid cc r =
      ({ students := dinsert sid ({ st with courses := st.courses ++ [cc] }) r.students,
         courses := dinsert cc ({ co with students := co.students ++ [sid] }) r.courses }, none) := by
    simp only [SMS.enroll_student_in_course, SMS.get_student, SMS.get_course, hs, hc,
      Student.enroll_course, Course.add_student, if_neg hnc, if_neg hns]
  rw [hrun]
  have hcount_c : (st.courses ++ [cc]).count cc = 1 := by
    rw [List.count_append, List.count_eq_zero.mpr hnc]
    simp
  have hcount_s : (co.students ++ [sid]).count sid = 1 := by
    rw [List.count_append, List.count_eq_zero.mpr hns]
    simp
  refine ⟨rfl, ⟨{ st with courses := st.courses ++ [cc] }, ?_, hcount_c⟩,
    ⟨{ co with students := co.students ++ [sid] }, ?_, hcount_s⟩, ?_⟩
  · rw [dget_dinsert, if_pos rfl]
  · rw [dget_dinsert, if_pos rfl]
  · have hmem : cc ∈ st.courses ++ [cc] := by simp
    simp [SMS.enroll_student_in_course, SMS.get_student, SMS.get_course,
      dget_dinsert, Student.enroll_course, hmem]

theorem c3_witness :
    (SMS.enroll_student_in_course "S1" "C1" regS1C1).2 = none ∧
    (∃ st', dget "S1" (SMS.enroll_student_in_course "S1" "C1" regS1C1).1.students = some st' ∧
      st'.courses.count "C1" = 1) ∧
    (∃ co', dget "C1" (SMS.enroll_student_in_course "S1" "C1" regS1C1).1.courses = some co' ∧
      co'.students.count "S1" = 1) ∧
    (SMS.enroll_student_in_course "S1" "C1" (SMS.enroll_student_in_course "S1" "C1" regS1C1).1).2 =
      some (.valueError ("Student " ++ stAlice.student_id ++ " already enrolled in " ++ "C1" ++ ".")) :=
  c3_enroll_once "S1" "C1" regS1C1 stAlice cAlgo rfl rfl (by decide) (by decide)

/-- C4: with student `sid` present, `add_grade_for_student` raises the
not-enrolled `ValueError` and leaves the state unchanged when the course
code is absent from the student's course list; when it is present, the
call succeeds, the student's grades mapping gets `cc` bound to `g`, and
the lookup of `cc` in the updated mapping yields `g` regardless of any
previously recorded grade (last write wins). -/
theorem c4_add_grade (sid cc g : String) (r : SMS) (st : Student)
    (h : dget sid r.students = some st) :
    (cc ∉ st.courses →
      SMS.add_grade_for_student sid cc g r =
        (r, some (.valueError ("Student " ++ sid ++ " is not enrolled in " ++ cc ++ ".")))) ∧
    (cc ∈ st.courses →
      SMS.add_grade_for_student sid cc g r =
        ({ r with students :=
            dinsert sid ({ st with grades := dinsert cc g st.grades }) r.students }, none) ∧
      dget cc (dinsert cc g st.grades) = some g) := by
  constructor
  · intro hn
    simp only [SMS.add_grade_for_student, h, if_neg hn]
  · intro hy
    refine ⟨?_, ?_⟩
    · simp only [SMS.add_grade_for_student, h, if_pos hy, Student.add_grade]
    · rw [dget_dinsert, if_pos rfl]

/-- The registry after enrolling S1 in C1, used by witnesses. -/
def regEnrolled : SMS := (SMS.enroll_student_in_course "S1" "C1" regS1C1).1

def stAliceEnrolled : Student := { stAlice with courses := ["C1"] }

def stAliceGraded : Student :=
  { stAliceEnrolled with grades := dinsert "C1" "A" stAliceEnrolled.grades }

theorem c4_witness :
    dget "S1" regEnrolled.students = some stAliceEnrolled ∧
    SMS.add_grade_for_student "S1" "C2" "B" regEnrolled =
      (regEnrolled, some (.valueError ("Student " ++ "S1" ++ " is not enrolled in " ++ "C2" ++ "."))) ∧
    SMS.add_grade_for_student "S1" "C1" "A" regEnrolled =
      ({ regEnrolled with students := dinsert "S1" stAliceGraded regEnrolled.students }, none) ∧
    dget "C1" (dinsert "C1" "A" stAliceEnrolled.grades) = some "A" :=
  ⟨rfl,
   (c4_add_grade "S1" "C2" "B" regEnrolled stAliceEnrolled rfl).1 (by decide),
   ((c4_add_grade "S1" "C1" "A" regEnrolled stAliceEnrolled rfl).2 (by decide)).1,
   ((c4_add_grade "S1" "C1" "A" regEnrolled stAliceEnrolled rfl).2 (by decide)).2⟩

/-! ### C9 and C5 -/

theorem student_from_to (s : Student) : Student.from_dict s.to_dict = .ok s := by
  cases s
  rfl

theorem course_from_to (c : Course) : Course.from_dict c.to_dict = .ok c := by
  cases c
  rfl

/-- C9: serializing a `Student` or a `Course` to its dict form and
deserializing it back reconstructs an instance with exactly the same
field values. -/
theorem c9_dict_round_trip :
    (∀ s : Student, Student.from_dict s.to_dict = .ok s) ∧
    (∀ c : Course, Course.from_dict c.to_dict = .ok c) :=
  ⟨student_from_to, course_from_to⟩

theorem buildStudents_to_dict (l : List (String × Student)) :
    buildStudents (l.map (fun p => (p.1, p.2.to_dict))) = .ok l := by
  induction l with
  | nil => rfl
  | cons p rest ih =>
    simp only [List.map_cons, buildStudents]
    rw [student_from_to, ih]
    rfl

theorem buildCourses_to_dict (l : List (String × Course)) :
    buildCourses (l.map (fun p => (p.1, p.2.to_dict))) = .ok l := by
  induction l with
  | nil => rfl
  | cons p rest ih =>
    simp only [List.map_cons, buildCourses]
    rw [course_from_to, ih]
    rfl

theorem repairStep_noop (cc sid : String) (sts : List (String × Student))
    (h : ∀ st, dget sid sts = some st → cc ∈ st.courses) :
    repairStep cc sts sid = sts := by
  unfold repairStep
  cases hd : dget sid sts with
  | none => rfl
  | some st =>
    have hm := h st hd
    simp [hm]

theorem foldl_repairStep_noop (cc : String) (sids : List String)
    (sts : List (String × Student))
    (h : ∀ sid ∈ sids, ∀ st, dget sid sts = some st → cc ∈ st.courses) :
    sids.foldl (repairStep cc) sts = sts := by
  induction sids with
  | nil => rfl
  | cons x rest ih =>
    rw [List.foldl_cons, repairStep_noop cc x sts (h x (List.mem_cons_self x rest))]
    exact ih (fun sid hsid => h sid (List.mem_cons_of_mem x hsid))

theorem repair_noop (crs : List (String × Course)) (sts : List (String × Student))
    (h : ∀ p ∈ crs, ∀ sid ∈ p.2.students, ∀ st, dget sid sts = some st → p.1 ∈ st.courses) :
    repair sts crs = sts := by
  induction crs with
  | nil => rfl
  | cons p rest ih =>
    unfold repair
    rw [List.foldl_cons, foldl_repairStep_noop p.1 p.2.students sts (h p (List.mem_cons_self p rest))]
    have hr := ih (fun q hq => h q (List.mem_cons_of_mem p hq))
    unfold repair at hr
    exact hr

/-- C5 (amended): for every registry state already satisfying the
course-to-student link consistency that the load-time loop enforces,
saving and then loading into a fresh registry reproduces exactly the
same student and course collections and reports no error. -/
theorem c5_save_load_round_trip (r : SMS) (h : LinkConsistent r) :
    SMS.load_data (.parsed r.save_data) emptySMS = (r, none) := by
  have hs := buildStudents_to_dict r.students
  have hc := buildCourses_to_dict r.courses
  have hr := repair_noop r.courses r.students h
  unfold SMS.load_data SMS.save_data
  simp only [Option.getD_some, hs, hc, hr]

/-- The registry after S1 got grade A in C1, used by several witnesses. -/
def regGraded : SMS := (SMS.add_grade_for_student "S1" "C1" "A" regEnrolled).1

theorem c5_witness :
    LinkConsistent regGraded ∧
    SMS.load_data (.parsed regGraded.save_data) emptySMS = (regGraded, none) :=
  ⟨by decide, c5_save_load_round_trip regGraded (by decide)⟩

/-- A registry state in which course C1 lists student S1 but S1's course
list is empty: a valid state of the data model on which the load-time
repair changes the student collection. -/
def inconsistentR : SMS :=
  { students := [("S1", stAlice)], courses := [("C1", { cAlgo with students := ["S1"] })] }

theorem c5_counterexample :
    dget "S1" (SMS.load_data (.parsed inconsistentR.save_data) emptySMS).1.students ≠
      dget "S1" inconsistentR.students := by decide

/-! ### C6 -/

/-- C6 (amended): `load_data` on a missing file raises the file-not-found
error and leaves both collections exactly as they were, and the same
holds for malformed JSON and for any failure while rebuilding the
student collection; a failure while rebuilding the course collection,
however, occurs after the student collection was already replaced. -/
theorem c6_load_failure (r : SMS) (d : Document) :
    SMS.load_data .missing r = (r, some .fileNotFound) ∧
    SMS.load_data .malformed r = (r, some (.jsonDecodeError "Expecting value")) ∧
    (∀ e, buildStudents (d.students.getD []) = .error e →
      SMS.load_data (.parsed d) r = (r, some e)) := by
  refine ⟨rfl, rfl, ?_⟩
  intro e he
  simp only [SMS.load_data, he]

/-- A student dict form with every key missing. -/
def emptyStudentDict : StudentDict :=
  { name := none, age := none, address := none, student_id := none,
    grades := none, courses := none }

/-- A course dict form with every key missing. -/
def emptyCourseDict : CourseDict :=
  { course_name := none, course_code := none, instructor := none, students := none }

/-- A document whose students section has a bad entry. -/
def badStudentDoc : Document :=
  { students := some [("S2", emptyStudentDict)], courses := none }

theorem c6_witness :
    SMS.load_data .missing regS1C1 = (regS1C1, some .fileNotFound) ∧
    SMS.load_data .malformed regS1C1 = (regS1C1, some (.jsonDecodeError "Expecting value")) ∧
    SMS.load_data (.parsed badStudentDoc) regS1C1 = (regS1C1, some (.keyError "name")) :=
  ⟨(c6_load_failure regS1C1 badStudentDoc).1,
   (c6_load_failure regS1C1 badStudentDoc).2.1,
   (c6_load_failure regS1C1 badStudentDoc).2.2 (.keyError "name") rfl⟩

/-- A well-formed students section followed by a bad course entry. -/
def partialDoc : Document :=
  { students := some [("S9", stAlice.to_dict)], courses := some [("C9", emptyCourseDict)] }

/-- C6 counterexample: loading `partialDoc` over a non-empty registry
fails (bad course entry) yet replaces the student collection while
keeping the old course collection — a partial overwrite on failure,
contradicting the claim's general clause. -/
theorem c6_counterexample :
    (SMS.load_data (.parsed partialDoc) regS1C1).2 = some (.keyError "course_name") ∧
    (SMS.load_data (.parsed partialDoc) regS1C1).1.students ≠ regS1C1.students ∧
    (SMS.load_data (.parsed partialDoc) regS1C1).1.courses = regS1C1.courses := by
  refine ⟨rfl, ?_, rfl⟩
  decide

/-! ### C7 and C10: invariants preserved by the mutating operations -/

theorem get_student_ok {sid : String} {r : SMS} {st : Student}
    (h : SMS.get_student sid r = .ok st) : dget sid r.students = some st := by
  unfold SMS.get_student at h
  cases hd : dget sid r.students with
  | some s =>
    rw [hd] at h
    injection h with h1
    rw [h1]
  | none =>
    rw [hd] at h
    cases h

theorem get_course_ok {cc : String} {r : SMS} {co : Course}
    (h : SMS.get_course cc r = .ok co) : dget cc r.courses = some co := by
  unfold SMS.get_course at h
  cases hd : dget cc r.courses with
  | some c =>
    rw [hd] at h
    injection h with h1
    rw [h1]
  | none =>
    rw [hd] at h
    cases h

theorem enroll_course_ok {st : Student} {cc : String} {st' : Student}
    (h : st.enroll_course cc = .ok st') :
    cc ∉ st.courses ∧ st' = { st with courses := st.courses ++ [cc] } := by
  unfold Student.enroll_course at h
  by_cases hm : cc ∈ st.courses
  · rw [if_pos hm] at h
    cases h
  · rw [if_neg hm] at h
    injection h with h1
    exact ⟨hm, h1.symm⟩

theorem course_add_student_ok {co : Course} {sid : String} {co' : Course}
    (h : co.add_student sid = .ok co') :
    sid ∉ co.students ∧ co' = { co with students := co.students ++ [sid] } := by
  unfold Course.add_student at h
  by_cases hm : sid ∈ co.students
  · rw [if_pos hm] at h
    cases h
  · rw [if_neg hm] at h
    injection h with h1
    exact ⟨hm, h1.symm⟩

theorem gradesInv_dinsert {sts : List (String × Student)} {k : String} {v : Student}
    (h : ∀ p ∈ sts, ∀ q ∈ p.2.grades, q.1 ∈ p.2.courses)
    (hv : ∀ q ∈ v.grades, q.1 ∈ v.courses) :
    ∀ p ∈ dinsert k v sts, ∀ q ∈ p.2.grades, q.1 ∈ p.2.courses := by
  intro p hp
  rcases mem_dinsert hp with h1 | h1
  · rw [h1]
    exact hv
  · exact h p h1

theorem gradesInv_step {r r' : SMS} (h : GradesInv r) (hs : SMS.Step r r') : GradesInv r' := by
  cases hs with
  | add_student n a ad sid =>
    by_cases hd : (dget sid r.students).isSome
    · have he : (SMS.add_student n a ad sid r).1 = r := by
        unfold SMS.add_student
        rw [if_pos hd]
      rw [he]
      exact h
    · have he : (SMS.add_student n a ad sid r).1 =
          { r with students := dinsert sid ⟨n, a, ad, sid, [], []⟩ r.students } := by
        unfold SMS.add_student
        rw [if_neg hd]
      rw [he]
      exact fun p hp => gradesInv_dinsert h (by simp) p hp
  | add_course cn cc i =>
    by_cases hd : (dget cc r.courses).isSome
    · have he : (SMS.add_course cn cc i r).1 = r := by
        unfold SMS.add_course
        rw [if_pos hd]
      rw [he]
      exact h
    · have he : (SMS.add_course cn cc i r).1 =
          { r with courses := dinsert cc ⟨cn, cc, i, []⟩ r.courses } := by
        unfold SMS.add_course
        rw [if_neg hd]
      rw [he]
      exact h
  | enroll sid cc =>
    cases hgs : SMS.get_student sid r with
    | error e =>
      have he : (SMS.enroll_student_in_course sid cc r).1 = r := by
        unfold SMS.enroll_student_in_course
        rw [hgs]
      rw [he]
      exact h
    | ok st =>
      cases hgc : SMS.get_course cc r with
      | error e =>
        have he : (SMS.enroll_student_in_course sid cc r).1 = r := by
          unfold SMS.enroll_student_in_course
          rw [hgs, hgc]
        rw [he]
        exact h
      | ok co =>
        cases hec : st.enroll_course cc with
        | error e =>
          have he : (SMS.enroll_student_in_course sid cc r).1 = r := by
            simp [SMS.enroll_student_in_course, hgs, hgc, hec]
          rw [he]
          exact h
        | ok st' =>
          obtain ⟨hnc, hst'⟩ := enroll_course_ok hec
          have hOKst : ∀ q ∈ st.grades, q.1 ∈ st.courses :=
            h (sid, st) (dget_mem (get_student_ok hgs))
          have hOK' : ∀ q ∈ st'.grades, q.1 ∈ st'.courses := by
            rw [hst']
            intro q hq
            exact List.mem_append_left _ (hOKst q hq)
          cases hca : co.add_student sid with
          | error e =>
            have he : (SMS.enroll_student_in_course sid cc r).1 =
                { r with students := dinsert sid st' r.students } := by
              simp [SMS.enroll_student_in_course, hgs, hgc, hec, hca]
            rw [he]
            exact fun p hp => gradesInv_dinsert h hOK' p hp
          | ok co' =>
            have he : (SMS.enroll_student_in_course sid cc r).1 =
                { students := dinsert sid st' r.students,
                  courses := dinsert cc co' r.courses } := by
              simp [SMS.enroll_student_in_course, hgs, hgc, hec, hca]
            rw [he]
            exact fun p hp => gradesInv_dinsert h hOK' p hp
  | add_grade sid cc g =>
    cases hd : dget sid r.students with
    | none =>
      have he : (SMS.add_grade_for_student sid cc g r).1 = r := by
        unfold SMS.add_grade_for_student
        rw [hd]
      rw [he]
      exact h
    | some st =>
      by_cases hm : cc ∈ st.courses
      · have hag : st.add_grade cc g = .ok { st with grades := dinsert cc g st.grades } := by
          unfold Student.add_grade
          rw [if_pos hm]
        have he : (SMS.add_grade_for_student sid cc g r).1 =
            { r with students :=
                dinsert sid ({ st with grades := dinsert cc g st.grades }) r.students } := by
          simp [SMS.add_grade_for_student, hd, hm, hag]
        rw [he]
        have hOKst : ∀ q ∈ st.grades, q.1 ∈ st.courses := h (sid, st) (dget_mem hd)
        have hOK' : ∀ q ∈ dinsert cc g st.grades, q.1 ∈ st.courses := by
          intro q hq
          rcases mem_dinsert hq with h1 | h1
          · rw [h1]
            exact hm
          · exact hOKst q h1
        exact fun p hp => gradesInv_dinsert h hOK' p hp
      · have he : (SMS.add_grade_for_student sid cc g r).1 = r := by
          simp [SMS.add_grade_for_student, hd, hm]
        rw [he]
        exact h

/-- C7 (amended): every course code keyed in a student's grades mapping
is an element of that student's course list, at every state reachable
from the empty registry by the four mutating registry operations
(`add_student`, `add_course`, `enroll_student_in_course`,
`add_grade_for_student`); `load_data` is excluded, since it can rebuild
students whose stored grades mention courses absent from their course
list. -/
theorem c7_grade_domain_invariant (r : SMS) (h : SMS.Reachable r) : GradesInv r := by
  induction h with
  | empty =>
    intro p hp
    exact absurd hp (List.not_mem_nil p)
  | step h1 h2 ih => exact gradesInv_step ih h2

theorem c7_witness : GradesInv regGraded :=
  c7_grade_domain_invariant regGraded
    (SMS.Reachable.step
      (SMS.Reachable.step
        (SMS.Reachable.step
          (SMS.Reachable.step SMS.Reachable.empty
            (SMS.Step.add_student "Alice" 20 "X St" "S1" emptySMS))
          (SMS.Step.add_course "Algo" "C1" "Dr. B"
            (SMS.add_student "Alice" 20 "X St" "S1" emptySMS).1))
        (SMS.Step.enroll "S1" "C1" regS1C1))
      (SMS.Step.add_grade "S1" "C1" "A" regEnrolled))

/-- A student dict form whose grades mention a course missing from its
course list. -/
def sdGrades : StudentDict :=
  { name := some "Alice", age := some 20, address := some "X St",
    student_id := some "S1", grades := some [("C1", "A")], courses := some [] }

/-- A document that loads successfully but violates the grade-domain
invariant. -/
def badGradesDoc : Document :=
  { students := some [("S1", sdGrades)], courses := some [] }

/-- C7 counterexample: from the empty registry (which satisfies the
invariant), `load_data` of `badGradesDoc` succeeds yet produces a state
with a grade for a course the student is not enrolled in, so the
invariant is not preserved by every operation once `load_data` is
included. -/
theorem c7_counterexample :
    GradesInv emptySMS ∧
    (SMS.load_data (.parsed badGradesDoc) emptySMS).2 = none ∧
    ¬ GradesInv (SMS.load_data (.parsed badGradesDoc) emptySMS).1 :=
  ⟨by decide, rfl, by decide⟩

/-- Keys of both collections agree with the stored entity's own
identifier field. -/
def KeysInv (r : SMS) : Prop :=
  (∀ p ∈ r.students, p.2.student_id = p.1) ∧ (∀ p ∈ r.courses, p.2.course_code = p.1)

theorem keys_dinsert {α : Type} (f : α → String) {l : List (String × α)} {k : String} {v : α}
    (h : ∀ p ∈ l, f p.2 = p.1) (hv : f v = k) :
    ∀ p ∈ dinsert k v l, f p.2 = p.1 := by
  intro p hp
  rcases mem_dinsert hp with h1 | h1
  · rw [h1]
    exact hv
  · exact h p h1

theorem keysInv_step {r r' : SMS} (h : KeysInv r) (hs : SMS.Step r r') : KeysInv r' := by
  obtain ⟨h1, h2⟩ := h
  cases hs with
  | add_student n a ad sid =>
    by_cases hd : (dget sid r.students).isSome
    · have he : (SMS.add_student n a ad sid r).1 = r := by
        unfold SMS.add_student
        rw [if_pos hd]
      rw [he]
      exact ⟨h1, h2⟩
    · have he : (SMS.add_student n a ad sid r).1 =
          { r with students := dinsert sid ⟨n, a, ad, sid, [], []⟩ r.students } := by
        unfold SMS.add_student
        rw [if_neg hd]
      rw [he]
      exact ⟨keys_dinsert (fun s : Student => s.student_id) h1 rfl, h2⟩
  | add_course cn cc i =>
    by_cases hd : (dget cc r.courses).isSome
    · have he : (SMS.add_course cn cc i r).1 = r := by
        unfold SMS.add_course
        rw [if_pos hd]
      rw [he]
      exact ⟨h1, h2⟩
    · have he : (SMS.add_course cn cc i r).1 =
          { r with courses := dinsert cc ⟨cn, cc, i, []⟩ r.courses } := by
        unfold SMS.add_course
        rw [if_neg hd]
      rw [he]
      exact ⟨h1, keys_dinsert (fun c : Course => c.course_code) h2 rfl⟩
  | enroll sid cc =>
    cases hgs : SMS.get_student sid r with
    | error e =>
      have he : (SMS.enroll_student_in_course sid cc r).1 = r := by
        unfold SMS.enroll_student_in_course
        rw [hgs]
      rw [he]
      exact ⟨h1, h2⟩
    | ok st =>
      cases hgc : SMS.get_course cc r with
      | error e =>
        have he : (SMS.enroll_student_in_course sid cc r).1 = r := by
          unfold SMS.enroll_student_in_course
          rw [hgs, hgc]
        rw [he]
        exact ⟨h1, h2⟩
      | ok co =>
        have hsid : st.student_id = sid := h1 (sid, st) (dget_mem (get_student_ok hgs))
        have hcc : co.course_code = cc := h2 (cc, co) (dget_mem (get_course_ok hgc))
        cases hec : st.enroll_course cc with
        | error e =>
          have he : (SMS.enroll_student_in_course sid cc r).1 = r := by
            simp [SMS.enroll_student_in_course, hgs, hgc, hec]
          rw [he]
          exact ⟨h1, h2⟩
        | ok st' =>
          obtain ⟨hnc, hst'⟩ := enroll_course_ok hec
          have hv : st'.student_id = sid := by
            rw [hst']
            exact hsid
          cases hca : co.add_student sid with
          | error e =>
            have he : (SMS.enroll_student_in_course sid cc r).1 =
                { r with students := dinsert sid st' r.students } := by
              simp [SMS.enroll_student_in_course, hgs, hgc, hec, hca]
            rw [he]
            exact ⟨keys_dinsert (fun s : Student => s.student_id) h1 hv, h2⟩
          | ok co' =>
            obtain ⟨hns, hco'⟩ := course_add_student_ok hca
            have hvc : co'.course_code = cc := by
              rw [hco']
              exact hcc
            have he : (SMS.enroll_student_in_course sid cc r).1 =
                { students := dinsert sid st' r.students,
                  courses := dinsert cc co' r.courses } := by
              simp [SMS.enroll_student_in_course, hgs, hgc, hec, hca]
            rw [he]
            exact ⟨keys_dinsert (fun s : Student => s.student_id) h1 hv,
                   keys_dinsert (fun c : Course => c.course_code) h2 hvc⟩
  | add_grade sid cc g =>
    cases hd : dget sid r.students with
    | none =>
      have he : (SMS.add_grade_for_student sid cc g r).1 = r := by
        unfold SMS.add_grade_for_student
        rw [hd]
      rw [he]
      exact ⟨h1, h2⟩
    | some st =>
      by_cases hm : cc ∈ st.courses
      · have hag : st.add_grade cc g = .ok { st with grades := dinsert cc g st.grades } := by
          unfold Student.add_grade
          rw [if_pos hm]
        have he : (SMS.add_grade_for_student sid cc g r).1 =
            { r with students :=
                dinsert sid ({ st with grades := dinsert cc g st.grades }) r.students } := by
          simp [SMS.add_grade_for_student, hd, hm, hag]
        rw [he]
        have hsid : st.student_id = sid := h1 (sid, st) (dget_mem hd)
        exact ⟨keys_dinsert (fun s : Student => s.student_id) h1 hsid, h2⟩
      · have he : (SMS.add_grade_for_student sid cc g r).1 = r := by
          simp [SMS.add_grade_for_student, hd, hm]
        rw [he]
        exact ⟨h1, h2⟩

/-- C10: at every state reachable from the empty registry by
`add_student`, `add_course`, `enroll_student_in_course` and
`add_grade_for_student`, every student-collection key maps to a student
whose `student_id` is that key, and every course-collection key maps to
a course whose `course_code` is that key. -/
theorem c10_key_coherence (r : SMS) (h : SMS.Reachable r) :
    (∀ k st, dget k r.students = some st → st.student_id = k) ∧
    (∀ k c, dget k r.courses = some c → c.course_code = k) := by
  have hinv : KeysInv r := by
    induction h with
    | empty =>
      exact ⟨fun p hp => absurd hp (List.not_mem_nil p),
             fun p hp => absurd hp (List.not_mem_nil p)⟩
    | step h1 h2 ih => exact keysInv_step ih h2
  exact ⟨fun k st hd => hinv.1 (k, st) (dget_mem hd),
         fun k c hd => hinv.2 (k, c) (dget_mem hd)⟩

theorem c10_witness :
    (∀ k st, dget k regGraded.students = some st → st.student_id = k) ∧
    (∀ k c, dget k regGraded.courses = some c → c.course_code = k) :=
  c10_key_coherence regGraded
    (SMS.Reachable.step
      (SMS.Reachable.step
        (SMS.Reachable.step
          (SMS.Reachable.step SMS.Reachable.empty
            (SMS.Step.add_student "Alice" 20 "X St" "S1" emptySMS))
          (SMS.Step.add_course "Algo" "C1" "Dr. B"
            (SMS.add_student "Alice" 20 "X St" "S1" emptySMS).1))
        (SMS.Step.enroll "S1" "C1" regS1C1))
      (SMS.Step.add_grade "S1" "C1" "A" regEnrolled))

/-! ### C8: the load-time repair establishes the course-to-student link -/

/-- Between two student collections: the key set is unchanged and every
student's course list only grows (as a set). -/
def coursesGrow (s1 s2 : List (String × Student)) : Prop :=
  ∀ sid, (dget sid s1 = none → dget sid s2 = none) ∧
    (∀ st, dget sid s1 = some st → ∃ st', dget sid s2 = some st' ∧
      ∀ c ∈ st.courses, c ∈ st'.courses)

theorem coursesGrow_refl (s : List (String × Student)) : coursesGrow s s :=
  fun _ => ⟨fun h => h, fun st h => ⟨st, h, fun _ hc => hc⟩⟩

theorem coursesGrow_trans {s1 s2 s3 : List (String × Student)}
    (h12 : coursesGrow s1 s2) (h23 : coursesGrow s2 s3) : coursesGrow s1 s3 := by
  intro sid
  constructor
  · intro h
    exact (h23 sid).1 ((h12 sid).1 h)
  · intro st h
    obtain ⟨st2, h2, hsub⟩ := (h12 sid).2 st h
    obtain ⟨st3, h3, hsub2⟩ := (h23 sid).2 st2 h2
    exact ⟨st3, h3, fun c hc => hsub2 c (hsub c hc)⟩

theorem coursesGrow_repairStep (cc x : String) (sts : List (String × Student)) :
    coursesGrow sts (repairStep cc sts x) := by
  unfold repairStep
  cases hd : dget x sts with
  | none => exact coursesGrow_refl sts
  | some st =>
    show coursesGrow sts
      (if cc ∈ st.courses then sts
       else dinsert x ({ st with courses := st.courses ++ [cc] }) sts)
    by_cases hm : cc ∈ st.courses
    · rw [if_pos hm]
      exact coursesGrow_refl sts
    · rw [if_neg hm]
      intro sid
      constructor
      · intro hn
        rw [dget_dinsert]
        by_cases hx : x = sid
        · subst hx
          rw [hd] at hn
          cases hn
        · rw [if_neg hx]
          exact hn
      · intro st0 h0
        by_cases hx : x = sid
        · subst hx
          rw [hd] at h0
          injection h0 with h0
          refine ⟨{ st with courses := st.courses ++ [cc] }, ?_, ?_⟩
          · rw [dget_dinsert, if_pos rfl]
          · rw [← h0]
            intro c hc
            exact List.mem_append_left _ hc
        · refine ⟨st0, ?_, fun c hc => hc⟩
          rw [dget_dinsert, if_neg hx]
          exact h0

theorem coursesGrow_foldl (cc : String) (l : List String) (sts : List (String × Student)) :
    coursesGrow sts (l.foldl (repairStep cc) sts) := by
  induction l generalizing sts with
  | nil => exact coursesGrow_refl sts
  | cons x rest ih =>
    rw [List.foldl_cons]
    exact coursesGrow_trans (coursesGrow_repairStep cc x sts) (ih (repairStep cc sts x))

theorem coursesGrow_repair (crs : List (String × Course)) (sts : List (String × Student)) :
    coursesGrow sts (repair sts crs) := by
  induction crs generalizing sts with
  | nil => exact coursesGrow_refl sts
  | cons q rest ih =>
    unfold repair
    rw [List.foldl_cons]
    have h1 := coursesGrow_foldl q.1 q.2.students sts
    have h2 := ih (q.2.students.foldl (repairStep q.1) sts)
    unfold repair at h2
    exact coursesGrow_trans h1 h2

theorem courseMem_mono {cc sid : String} {s1 s2 : List (String × Student)}
    (h : ∀ st, dget sid s1 = some st → cc ∈ st.courses) (hg : coursesGrow s1 s2) :
    ∀ st, dget sid s2 = some st → cc ∈ st.courses := by
  intro st2 h2
  cases hd : dget sid s1 with
  | none =>
    rw [(hg sid).1 hd] at h2
    cases h2
  | some st1 =>
    obtain ⟨st', h', hsub⟩ := (hg sid).2 st1 hd
    rw [h'] at h2
    injection h2 with h2
    subst h2
    exact hsub cc (h st1 hd)

theorem repairStep_establishes (cc x : String) (sts : List (String × Student)) :
    ∀ st, dget x (repairStep cc sts x) = some st → cc ∈ st.courses := by
  intro st1 h1
  unfold repairStep at h1
  cases hd : dget x sts with
  | none =>
    simp only [hd] at h1
    cases h1
  | some st =>
    simp only [hd] at h1
    by_cases hm : cc ∈ st.courses
    · rw [if_pos hm, hd] at h1
      injection h1 with h1
      subst h1
      exact hm
    · rw [if_neg hm, dget_dinsert, if_pos rfl] at h1
      injection h1 with h1
      subst h1
      exact List.mem_append_right _ (by simp)

theorem courseOK_foldl (cc : String) (l : List String) (sts : List (String × Student)) :
    ∀ sid ∈ l, ∀ st, dget sid (l.foldl (repairStep cc) sts) = some st → cc ∈ st.courses := by
  induction l generalizing sts with
  | nil =>
    intro sid h
    cases h
  | cons x rest ih =>
    intro sid hsid
    rw [List.foldl_cons]
    rcases List.mem_cons.mp hsid with h | h
    · subst h
      exact courseMem_mono (repairStep_establishes cc sid sts)
        (coursesGrow_foldl cc rest (repairStep cc sts sid))
    · exact ih (repairStep cc sts x) sid h

theorem repair_establishes (crs : List (String × Course)) (sts : List (String × Student)) :
    ∀ p ∈ crs, ∀ sid ∈ p.2.students, ∀ st,
      dget sid (repair sts crs) = some st → p.1 ∈ st.courses := by
  induction crs generalizing sts with
  | nil =>
    intro p hp
    cases hp
  | cons q rest ih =>
    intro p hp sid hsid
    unfold repair
    rw [List.foldl_cons]
    rcases List.mem_cons.mp hp with h | h
    · subst h
      have hest := courseOK_foldl p.1 p.2.students sts sid hsid
      have hgrow := coursesGrow_repair rest (p.2.students.foldl (repairStep p.1) sts)
      unfold repair at hgrow
      exact fun st hst => courseMem_mono hest hgrow st hst
    · exact fun st hst => ih (q.2.students.foldl (repairStep q.1) sts) p h sid hsid st hst

/-- C8: whenever `load_data` succeeds, every student id listed by a
stored course and present in the student collection has that course's
key in its course list; and the course collection is exactly what was
parsed from the document — `load_data` performs no repair in the reverse
direction (it never touches a course's student list). -/
theorem c8_load_repair (d : Document) (r r' : SMS)
    (h : SMS.load_data (.parsed d) r = (r', none)) :
    (∀ cc c, dget cc r'.courses = some c → ∀ sid ∈ c.students, ∀ st,
      dget sid r'.students = some st → cc ∈ st.courses) ∧
    (∃ crs, buildCourses (d.courses.getD []) = .ok crs ∧ r'.courses = crs) := by
  unfold SMS.load_data at h
  cases hbs : buildStudents (d.students.getD []) with
  | error e =>
    simp only [hbs] at h
    injection h with h1 h2
    exact Option.noConfusion h2
  | ok sts =>
    simp only [hbs] at h
    cases hbc : buildCourses (d.courses.getD []) with
    | error e =>
      simp only [hbc] at h
      injection h with h1 h2
      exact Option.noConfusion h2
    | ok crs =>
      simp only [hbc] at h
      injection h with h1 h2
      subst h1
      refine ⟨?_, crs, rfl, rfl⟩
      intro cc c hc sid hsid st hst
      exact repair_establishes crs sts (cc, c) (dget_mem hc) sid hsid st hst

/-- A second student, present in the document, listing a course whose
course object does not list them back. -/
def sdS2 : StudentDict :=
  { name := some "Bob", age := some 21, address := some "Y Rd",
    student_id := some "S2", grades := some [], courses := some ["C9"] }

/-- A stored course listing student S1 (whose own course list in the
document is empty, so only the repair adds it). -/
def cdC1 : CourseDict :=
  { course_name := some "Algo", course_code := some "C1",
    instructor := some "Dr. B", students := some ["S1"] }

def c8Doc : Document :=
  { students := some [("S1", stAlice.to_dict), ("S2", sdS2)], courses := some [("C1", cdC1)] }

def c8Loaded : SMS := (SMS.load_data (.parsed c8Doc) emptySMS).1

theorem c8_witness :
    (∀ cc c, dget cc c8Loaded.courses = some c → ∀ sid ∈ c.students, ∀ st,
      dget sid c8Loaded.students = some st → cc ∈ st.courses) ∧
    (∃ crs, buildCourses (c8Doc.courses.getD []) = .ok crs ∧ c8Loaded.courses = crs) :=
  c8_load_repair c8Doc emptySMS c8Loaded (by decide)
